import Mathlib

/-!
# Verification of the WebWarden `CrawlerEngine` (crawler-engine module)

A shallow embedding of the crawl scheduling and execution engine of the
WebWarden crawler.  The JavaScript source is translated into executable Lean
definitions:

* JS string primitives (`split('\n')`, `trim`, `toLowerCase`, `startsWith`,
  `substring(n)`, `includes`) are modelled by explicit functions over the
  character list of a `String`;
* the browser `URL` class and the DOM parsing layer (`DOMParser`,
  `querySelectorAll`) are external platform collaborators, so they are
  modelled as parameters: a `UrlApi` record of parsing/resolution functions
  and an `hrefsOf` function that lists a document's anchor targets in
  document order;
* network I/O is modelled by an oracle giving the outcome of each `fetch`
  call in issue order, with a trace logging every outbound request;
* the engine's mutable fields (`visited`, `queue`, `index`, `errors`,
  `robotsCache`, `stats`, `stopFlag`) become an explicit `EngineState`
  threaded through the step functions, and the `async` retry recursion of
  `crawlPage` becomes a fuel-indexed recursion (the fuel strictly exceeds
  the number of retries the source can perform, so the fuel-exhaustion
  branch is unreachable and coincides with the source's no-retry branch).

The fields of a page record that are produced purely by the external DOM
extractor (title, description, keywords, headings, counts, timestamps) are
never read by the engine and are omitted from the `PageData` model; the
fields the engine itself supplies (`url`, `depth`, `referrer`,
`contentLength`) are kept.
-/

/-- A JavaScript `Error` value as observed by the engine: its `name`
(`"AbortError"` for an aborted fetch, `"Error"` for `new Error(...)`,
`"TypeError"` for a network failure) and its `message`. -/
structure JsError where
  name : String
  message : String
deriving Repr, DecidableEq

/-- The engine configuration (constructor of `CrawlerEngine`), with the
source's default values. -/
structure Config where
  maxConcurrency : Nat := 3
  requestDelay : Nat := 1000
  timeout : Nat := 10000
  maxRetries : Nat := 2
  respectRobots : Bool := true
  userAgent : String := "WebWarden Crawler 2.0"
  maxPages : Nat := 100
  maxDepth : Nat := 3
deriving Repr, DecidableEq

/-- A frontier work item `{url, depth, referrer}` as pushed onto
`this.queue` (the `anchorText` field produced by link extraction is never
read by the engine and is omitted). -/
structure WorkItem where
  url : String
  depth : Nat
  referrer : Option String
deriving Repr, DecidableEq

/-- The engine-supplied part of a page record built by `parsePageData`. -/
structure PageData where
  url : String
  depth : Nat
  referrer : Option String
  contentLength : Nat
deriving Repr, DecidableEq

/-- An entry of `this.errors`, pushed by `handleCrawlError` (the wall-clock
`timestamp` field is omitted). -/
structure CrawlError where
  url : String
  message : String
deriving Repr, DecidableEq

/-! ## JS string primitives over character lists -/

/-- `startsWithList s t`: does the character list `s` start with `t`?
Models JS `String.prototype.startsWith`. -/
def startsWithList : List Char → List Char → Bool
  | _, [] => true
  | [], _ :: _ => false
  | a :: as, b :: bs => a = b && startsWithList as bs

/-- Scan of a haystack for a needle, used by `jsIncludes`. -/
def jsIncludesAux : List Char → List Char → Bool
  | [], needle => needle.isEmpty
  | c :: hs, needle => startsWithList (c :: hs) needle || jsIncludesAux hs needle

/-- Models JS `s.includes(t)` (substring containment; every string
includes the empty string). -/
def jsIncludes (s t : String) : Bool := jsIncludesAux s.toList t.toList

/-- ASCII whitespace recognizer for `jsTrim`. -/
def isWsChar (c : Char) : Bool := c = ' ' || c = '\n' || c = '\t' || c = '\r'

/-- Models JS `s.trim()`: strip whitespace from both ends. -/
def jsTrim (s : String) : String :=
  String.mk (((s.toList.dropWhile isWsChar).reverse.dropWhile isWsChar).reverse)

/-- Lower-case one ASCII character. -/
def lowerChar (c : Char) : Char :=
  if 'A' ≤ c ∧ c ≤ 'Z' then Char.ofNat (c.toNat + 32) else c

/-- Models JS `s.toLowerCase()` on ASCII text. -/
def jsToLower (s : String) : String := String.mk (s.toList.map lowerChar)

/-- Models JS `s.startsWith(t)`. -/
def jsStartsWith (s t : String) : Bool := startsWithList s.toList t.toList

/-- Models JS `s.substring(n)`: drop the first `n` characters. -/
def jsDrop (s : String) (n : Nat) : String := String.mk (s.toList.drop n)

/-- Accumulator-style splitter for `jsSplitNl`. -/
def splitLinesAux : List Char → List Char → List String
  | [], acc => [String.mk acc.reverse]
  | c :: cs, acc =>
    if c = '\n' then String.mk acc.reverse :: splitLinesAux cs []
    else splitLinesAux cs (c :: acc)

/-- Models JS `s.split('\n')`. -/
def jsSplitNl (s : String) : List String := splitLinesAux s.toList []

/-! ## robots.txt parsing (`CrawlerEngine.parseRobotsTxt`) -/

/-- One step of the line scan of `parseRobotsTxt`.  The state is the pair
`(userAgentMatch, allowed)`; a `User-agent:` line re-targets the block, and
while a matching block is active a `Disallow:`/`Allow:` line whose nonempty
prefix matches `pathname` overwrites `allowed` (so a later matching rule
overrides any earlier one). -/
def robotsStep (userAgent pathname : String) (st : Bool × Bool) (line : String) :
    Bool × Bool :=
  if jsStartsWith (jsToLower line) "user-agent:" then
    let agent := jsTrim (jsDrop line 11)
    (agent == "*" || jsIncludes userAgent agent, st.2)
  else if st.1 && jsStartsWith (jsToLower line) "disallow:" then
    let p := jsTrim (jsDrop line 9)
    if p != "" && jsStartsWith pathname p then (st.1, false) else st
  else if st.1 && jsStartsWith (jsToLower line) "allow:" then
    let p := jsTrim (jsDrop line 6)
    if p != "" && jsStartsWith pathname p then (st.1, true) else st
  else st

/-- `CrawlerEngine.parseRobotsTxt(robotsText, pathname)`: split into trimmed
lines, scan them in order starting from `(userAgentMatch := false,
allowed := true)`, and return the final `allowed` flag (default allow). -/
def parseRobotsTxt (userAgent robotsText pathname : String) : Bool :=
  let lines := (jsSplitNl robotsText).map jsTrim
  (lines.foldl (robotsStep userAgent pathname) (false, true)).2

/-! ## The platform `URL` class, modelled as a parameter -/

/-- The components of a parsed URL that the engine reads: `protocol`,
`hostname`, `host`, `pathname` and the serialized `href`. -/
structure UrlParts where
  protocol : String
  hostname : String
  host : String
  pathname : String
  href : String
deriving Repr, DecidableEq

/-- The browser `URL` constructor, as used by the engine: `parse s` models
`new URL(s)` and `resolve href base` models `new URL(href, base)`; `none`
models a thrown `TypeError` (caught by the source's `try`/`catch`). -/
structure UrlApi where
  parse : String → Option UrlParts
  resolve : String → String → Option UrlParts

/-- `CrawlerEngine.isValidUrl(url)`: parse and accept only `http:`/`https:`
protocols; a parse failure is caught and yields `false`. -/
def isValidUrl (api : UrlApi) (url : String) : Bool :=
  match api.parse url with
  | some p => p.protocol == "http:" || p.protocol == "https:"
  | none => false

/-- `CrawlerEngine.isSameDomain(url1, url2)`: equal hostnames, `false` on
any parse failure. -/
def isSameDomain (api : UrlApi) (u1 u2 : String) : Bool :=
  match api.parse u1, api.parse u2 with
  | some a, some b => a.hostname == b.hostname
  | _, _ => false

/-- The `.map` stage of `extractLinks`: each anchor `href` attribute is
resolved against the page's own URL (`new URL(href, url).href`); an empty
(falsy) `href` or a resolution failure yields `null`, dropped here by
`filterMap` (the source drops the `null`s in its subsequent `filter`). -/
def resolvedItems (api : UrlApi) (url : String) (nextDepth : Nat)
    (hrefs : List String) : List WorkItem :=
  hrefs.filterMap fun href =>
    if href == "" then none
    else
      match api.resolve href url with
      | none => none
      | some abs => some { url := abs.href, depth := nextDepth, referrer := some url }

/-- The pure core of `CrawlerEngine.extractLinks` after the page body has
been fetched: resolve every anchor target against the page URL, keep those
that are valid `http`/`https` URLs, are not yet visited and share the
hostname of `new URL(url).href`, and cap the result at 20
(`.slice(0, 20)`), preserving document order.  A failure of
`new URL(url)` is caught and yields `[]`. -/
def extractLinksCore (api : UrlApi) (url : String) (nextDepth : Nat)
    (visited : List String) (hrefs : List String) : List WorkItem :=
  match api.parse url with
  | none => []
  | some base =>
    ((resolvedItems api url nextDepth hrefs).filter fun l =>
      isValidUrl api l.url && !(visited.contains l.url) &&
        isSameDomain api l.url base.href).take 20

/-! ## Network oracle, trace and engine state -/

/-- The outcome of one `fetch` call: a settled response (status, status
text, `content-type` header — `""` when absent — and body text) or a
rejection carrying a JS error. -/
inductive FetchOutcome where
  | resp (status : Nat) (statusText : String) (contentType : String) (body : String)
  | err (e : JsError)
deriving Repr, DecidableEq

/-- One outbound HTTP request, as logged in issue order: a page fetch
(`fetchWithTimeout` in `crawlPage`/`extractLinks`) or a robots.txt fetch
(`isAllowedByRobots`). -/
inductive FetchEvent where
  | page (url : String)
  | robots (url : String)
deriving Repr, DecidableEq

/-- Instrumentation threaded through a run: counters indexing the two
oracles and the log of outbound requests in issue order. -/
structure Trace where
  nFetch : Nat := 0
  nRobots : Nat := 0
  fetchLog : List FetchEvent := []
deriving Repr, DecidableEq

/-- The mutable fields of `CrawlerEngine` that the crawl logic touches:
`visited` (insertion-ordered, membership is what matters), the frontier
`queue`, the accumulated pages `index`, the `errors` list, the
`robotsCache` keyed by robots URL, the `stats` counters, and the
`stopFlag`. -/
structure EngineState where
  visited : List String := []
  queue : List WorkItem := []
  index : List PageData := []
  errors : List CrawlError := []
  robotsCache : List (String × Bool) := []
  processed : Nat := 0
  failed : Nat := 0
  skipped : Nat := 0
  stopFlag : Bool := false
deriving Repr, DecidableEq

/-- The environment of a run: `oracle n` is the outcome of the `n`-th page
fetch, `robotsOracle n` the outcome of the `n`-th robots.txt fetch,
`hrefsOf body` the anchor targets the external DOM parser extracts from a
document body (in document order), and `stopAfterFetch n` says whether
`stopCrawl()` is invoked while the `n`-th page fetch is in flight (setting
`stopFlag`; the fetch outcome itself then reports the abort). -/
structure World where
  oracle : Nat → FetchOutcome
  robotsOracle : Nat → FetchOutcome
  hrefsOf : String → List String
  stopAfterFetch : Nat → Bool

/-- First-match lookup in the robots cache (a JS `Map`; keys are inserted
at most once, so first match equals latest insertion). -/
def cacheLookup : List (String × Bool) → String → Option Bool
  | [], _ => none
  | (k, v) :: rest, key => if k == key then some v else cacheLookup rest key

/-- `response.ok`: status in the 2xx range. -/
def respOk (status : Nat) : Bool := 200 ≤ status && status ≤ 299

/-- `CrawlerEngine.isAllowedByRobots(url)`.  Parse the URL (a failure is
caught and allows), build the robots URL `{protocol}//{host}/robots.txt`,
consult the cache, otherwise fetch the robots file: a rejected fetch is
caught and allows WITHOUT caching; a non-ok response caches `true`
(allow); an ok response caches the `parseRobotsTxt` decision for the
request's pathname. -/
def isAllowedByRobots (api : UrlApi) (cfg : Config) (w : World)
    (st : EngineState) (tr : Trace) (url : String) :
    Bool × EngineState × Trace :=
  match api.parse url with
  | none => (true, st, tr)
  | some u =>
    let robotsUrl := u.protocol ++ "//" ++ u.host ++ "/robots.txt"
    match cacheLookup st.robotsCache robotsUrl with
    | some b => (b, st, tr)
    | none =>
      let o := w.robotsOracle tr.nRobots
      let tr := { tr with
        nRobots := tr.nRobots + 1
        fetchLog := tr.fetchLog ++ [FetchEvent.robots robotsUrl] }
      match o with
      | FetchOutcome.err _ => (true, st, tr)
      | FetchOutcome.resp status _ _ body =>
        if respOk status then
          let allowed := parseRobotsTxt cfg.userAgent body u.pathname
          (allowed, { st with robotsCache := st.robotsCache ++ [(robotsUrl, allowed)] }, tr)
        else
          (true, { st with robotsCache := st.robotsCache ++ [(robotsUrl, true)] }, tr)

/-- One call of `fetchWithTimeout(url)`: log the request, consume the next
oracle outcome, and record a `stopCrawl()` raised while this fetch is in
flight by setting `stopFlag`. -/
def doFetch (w : World) (st : EngineState) (tr : Trace) (url : String) :
    FetchOutcome × EngineState × Trace :=
  let o := w.oracle tr.nFetch
  let st := if w.stopAfterFetch tr.nFetch then { st with stopFlag := true } else st
  (o, st, { tr with nFetch := tr.nFetch + 1, fetchLog := tr.fetchLog ++ [FetchEvent.page url] })

/-- The three ways `crawlPage` can finish: return a page record, return
`null`, or throw. -/
inductive POutcome where
  | page (p : PageData)
  | nul
  | thrown (e : JsError)
deriving Repr, DecidableEq

/-- `CrawlerEngine.crawlPage(url, depth, referrer, retryCount)`, with the
self-reinvoking retry turned into a fuel-indexed recursion (the top-level
call passes fuel `maxRetries + 1`, strictly more than the number of
retries the condition `retryCount < maxRetries` admits, so the fuel-zero
branch is unreachable).  In source order: the visited guard returns
`null`; a robots denial increments `skipped` and returns `null`; the URL
is added to `visited`; the fetch runs; a non-2xx status or a content type
not containing `text/html` becomes a thrown `Error`, a successful HTML
response becomes a page record; any caught error with `retryCount <
maxRetries` whose name is not `"AbortError"` re-invokes `crawlPage` with
`retryCount + 1`, and otherwise the error is rethrown. -/
def crawlPage (api : UrlApi) (cfg : Config) (w : World) :
    Nat → EngineState → Trace → String → Nat → Option String → Nat →
      EngineState × Trace × POutcome
  | fuel, st, tr, url, depth, referrer, retryCount =>
    if st.visited.contains url then (st, tr, POutcome.nul)
    else
      let rr :=
        if cfg.respectRobots then isAllowedByRobots api cfg w st tr url
        else (true, st, tr)
      if !rr.1 then
        ({ rr.2.1 with skipped := rr.2.1.skipped + 1 }, rr.2.2, POutcome.nul)
      else
        let st1 := { rr.2.1 with visited := rr.2.1.visited ++ [url] }
        let fo := doFetch w st1 rr.2.2 url
        let res : PageData ⊕ JsError :=
          match fo.1 with
          | FetchOutcome.err e => Sum.inr e
          | FetchOutcome.resp status statusText contentType body =>
            if respOk status then
              if jsIncludes contentType "text/html" then
                Sum.inl { url := url, depth := depth, referrer := referrer,
                          contentLength := body.length }
              else Sum.inr ⟨"Error", "Unsupported content type: " ++ contentType⟩
            else Sum.inr ⟨"Error", "HTTP " ++ toString status ++ ": " ++ statusText⟩
        match res with
        | Sum.inl p => (fo.2.1, fo.2.2, POutcome.page p)
        | Sum.inr e =>
          if retryCount < cfg.maxRetries && e.name != "AbortError" then
            match fuel with
            | 0 => (fo.2.1, fo.2.2, POutcome.thrown e)
            | fuel' + 1 =>
              crawlPage api cfg w fuel' fo.2.1 fo.2.2 url depth referrer (retryCount + 1)
          else (fo.2.1, fo.2.2, POutcome.thrown e)

/-- `CrawlerEngine.extractLinks(url, nextDepth)`: fetch the page AGAIN
(`fetchWithTimeout`), read its text without any status or content-type
check, and run the link extraction core on the anchors the DOM parser
finds; any thrown error is caught and yields `[]`. -/
def extractLinks (api : UrlApi) (w : World) (st : EngineState) (tr : Trace)
    (url : String) (nextDepth : Nat) : List WorkItem × EngineState × Trace :=
  let fo := doFetch w st tr url
  match fo.1 with
  | FetchOutcome.err _ => ([], fo.2.1, fo.2.2)
  | FetchOutcome.resp _ _ _ body =>
    (extractLinksCore api url nextDepth fo.2.1.visited (w.hrefsOf body), fo.2.1, fo.2.2)

/-- The body of one `crawlWorker` iteration after the dequeue and the
visited pre-check: the rate-limited request function runs `crawlPage`; a
returned page is appended to `index` with `processed` incremented, and if
`item.depth < maxDepth` the newly extracted links are pushed onto the
queue; a `null` return does nothing further; a thrown error is caught by
the worker and recorded by `handleCrawlError` (append to `errors`,
increment `failed`).  This whole body executes under ONE
`rateLimitedRequest` gate acquisition. -/
def crawlIter (api : UrlApi) (cfg : Config) (w : World)
    (st : EngineState) (tr : Trace) (item : WorkItem) : EngineState × Trace :=
  let cp :=
    crawlPage api cfg w (cfg.maxRetries + 1) st tr item.url item.depth item.referrer 0
  match cp.2.2 with
  | POutcome.page p =>
    let st1 := { cp.1 with index := cp.1.index ++ [p], processed := cp.1.processed + 1 }
    if item.depth < cfg.maxDepth then
      let ex := extractLinks api w st1 cp.2.1 item.url (item.depth + 1)
      ({ ex.2.1 with queue := ex.2.1.queue ++ ex.1 }, ex.2.2)
    else (st1, cp.2.1)
  | POutcome.nul => (cp.1, cp.2.1)
  | POutcome.thrown e =>
    ({ cp.1 with
        errors := cp.1.errors ++ [{ url := item.url, message := e.message }]
        failed := cp.1.failed + 1 }, cp.2.1)

/-- The `crawlWorker` loop of one worker, as a fuel-indexed recursion:
while `!stopFlag && queue.length > 0 && index.length < maxPages`, shift
one item, skip it if already visited, and otherwise run the iteration
body.  This is the semantics of the WHOLE crawl: `startCrawl` seeds the
queue with exactly one item and `processCrawlQueue` runs each
`crawlWorker()` synchronously up to its first `await`, so worker 1 shifts
the seed before suspending at `rateLimitedRequest` and every later worker
finds the queue empty at its first loop check and exits permanently
(workers are never restarted). -/
def crawlLoop (api : UrlApi) (cfg : Config) (w : World) :
    Nat → EngineState → Trace → EngineState × Trace
  | 0, st, tr => (st, tr)
  | fuel + 1, st, tr =>
    if st.stopFlag then (st, tr)
    else
      match st.queue with
      | [] => (st, tr)
      | item :: rest =>
        if st.index.length < cfg.maxPages then
          let st' := { st with queue := rest }
          if st'.visited.contains item.url then crawlLoop api cfg w fuel st' tr
          else
            let r := crawlIter api cfg w st' tr item
            crawlLoop api cfg w fuel r.1 r.2
        else (st, tr)

/-! ## Rate limiter timing (`CrawlerEngine.processRequestQueue`)

`processRequestQueue` is a single serialized drain of `requestQueue`: for
each queued request function it computes `timeSinceLastRequest`, sleeps
`requestDelay - timeSinceLastRequest` if that is still below
`requestDelay`, records `lastRequestTime := Date.now()`, and then AWAITS
the request function to completion before dispatching the next one.  The
timing is modelled over an abstract millisecond clock: a job is the list
of durations of the HTTP fetches its request function performs
back-to-back (each next fetch starting when the previous one settles, as
in `crawlIter`). -/

/-- Dispatch times of consecutive request functions: the next one starts at
`max now (last + delay)` where `now` is the completion time of the
previous job and `last` its dispatch time. -/
def dispatchSchedule (delay : Nat) : List Nat → Nat → Nat → List Nat
  | [], _, _ => []
  | d :: ds, last, now =>
    let t := max now (last + delay)
    t :: dispatchSchedule delay ds t (t + d)

/-- Start times of the back-to-back fetches inside one job dispatched at
time `t`: each fetch starts when the previous one settles. -/
def fetchOffsets : List Nat → Nat → List Nat
  | [], _ => []
  | d :: ds, t => t :: fetchOffsets ds (t + d)

/-- Start times of every outbound fetch across a drain of the request
queue: jobs are dispatched by `dispatchSchedule` spacing, and the fetches
inside one job run back-to-back from its dispatch time. -/
def timedFetchStarts (delay : Nat) : List (List Nat) → Nat → Nat → List Nat
  | [], _, _ => []
  | durs :: jobs, last, now =>
    let t := max now (last + delay)
    fetchOffsets durs t ++ timedFetchStarts delay jobs t (t + durs.sum)

/-! ## A small concrete URL implementation

Used only to instantiate the `UrlApi` parameter in witnesses and
counterexamples.  It understands URLs of the shape `http://host/path`:
`parse` keeps the original string as `href` (so re-parsing the `href`
reproduces the same parts), and `resolve` handles absolute targets and
host-relative `/...` targets. -/

/-- Parse `http://host/path` (also `https://`); `href` is the input
string itself. -/
def toyParse (s : String) : Option UrlParts :=
  if jsStartsWith s "http://" then
    let rest := (jsDrop s 7).toList
    some { protocol := "http:", hostname := String.mk (rest.takeWhile (· ≠ '/')),
           host := String.mk (rest.takeWhile (· ≠ '/')),
           pathname := String.mk (rest.dropWhile (· ≠ '/')), href := s }
  else if jsStartsWith s "https://" then
    let rest := (jsDrop s 8).toList
    some { protocol := "https:", hostname := String.mk (rest.takeWhile (· ≠ '/')),
           host := String.mk (rest.takeWhile (· ≠ '/')),
           pathname := String.mk (rest.dropWhile (· ≠ '/')), href := s }
  else none

/-- Resolve an anchor target against a base: absolute targets parse on
their own, `/...` targets adopt the base's scheme and host, everything
else fails. -/
def toyResolve (href base : String) : Option UrlParts :=
  if jsStartsWith href "http://" || jsStartsWith href "https://" then toyParse href
  else if jsStartsWith href "/" then
    match toyParse base with
    | none => none
    | some b =>
      toyParse ((if b.protocol == "https:" then "https://" else "http://") ++ b.host ++ href)
  else none

/-- The toy `UrlApi` instance. -/
def toyApi : UrlApi := { parse := toyParse, resolve := toyResolve }

/-! ## Shared concrete instances for witnesses and counterexamples -/

/-- A `World` whose every page fetch yields the outcome `o`, whose robots
fetches all reject with a network error, with no anchors in any document
and no stop signal. -/
def constWorld (o : FetchOutcome) : World :=
  { oracle := fun _ => o
    robotsOracle := fun _ => FetchOutcome.err ⟨"TypeError", "Failed to fetch"⟩
    hrefsOf := fun _ => []
    stopAfterFetch := fun _ => false }

/-- Default configuration with robots compliance switched off. -/
def cfgNoRobots : Config := { respectRobots := false }

/-- A world of uniformly successful small HTML responses. -/
def okWorld : World := constWorld (FetchOutcome.resp 200 "OK" "text/html" "hi")

/-- A world in which `stopCrawl()` is invoked while the first page fetch is
in flight: the shared `AbortController` aborts that fetch, whose outcome is
a rejection named `AbortError`. -/
def stopWorld : World :=
  { oracle := fun _ => FetchOutcome.err ⟨"AbortError", "The operation was aborted."⟩
    robotsOracle := fun _ => FetchOutcome.err ⟨"TypeError", "Failed to fetch"⟩
    hrefsOf := fun _ => []
    stopAfterFetch := fun _ => true }

/-- A world whose robots.txt fetch succeeds with a body disallowing every
path for every agent. -/
def denyRobotsWorld : World :=
  { oracle := fun _ => FetchOutcome.resp 200 "OK" "text/html" "hi"
    robotsOracle := fun _ => FetchOutcome.resp 200 "OK" "text/plain" "User-agent: *\nDisallow: /"
    hrefsOf := fun _ => []
    stopAfterFetch := fun _ => false }

/-- A world whose robots.txt fetches always reject with a network error. -/
def netErrRobotsWorld : World :=
  { oracle := fun _ => FetchOutcome.resp 200 "OK" "text/html" "hi"
    robotsOracle := fun _ => FetchOutcome.err ⟨"TypeError", "Failed to fetch"⟩
    hrefsOf := fun _ => []
    stopAfterFetch := fun _ => false }

/-- Two successive robots checks against the same host under
`netErrRobotsWorld`, threading state and trace. -/
def robotsTwice (u1 u2 : String) : Bool × EngineState × Trace :=
  let r1 := isAllowedByRobots toyApi {} netErrRobotsWorld {} {} u1
  let r2 := isAllowedByRobots toyApi {} netErrRobotsWorld r1.2.1 r1.2.2 u2
  (r2.1, r2.2.1, r2.2.2)

/-- The robots URL the engine builds for a parsed URL:
`{protocol}//{host}/robots.txt`. -/
def robotsUrlOf (u : UrlParts) : String := u.protocol ++ "//" ++ u.host ++ "/robots.txt"

/-- `s` parses to a URL whose hostname is `h` (the domain-confinement
invariant of the crawl). -/
def sameHost (api : UrlApi) (h : String) (s : String) : Prop :=
  ∃ p, api.parse s = some p ∧ p.hostname = h

/-! ## Helper lemmas -/

/-- Two candidate literal prefixes with different head characters cannot
both match: if a character list starts with `a :: as` and `a ≠ b`, it does
not start with `b :: bs`. -/
theorem startsWithList_head_ne {l : List Char} {a b : Char} {as bs : List Char}
    (h : startsWithList l (a :: as) = true) (hab : a ≠ b) :
    startsWithList l (b :: bs) = false := by
  cases l with
  | nil => simp [startsWithList] at h
  | cons c cs =>
    simp only [startsWithList, Bool.and_eq_true, decide_eq_true_eq] at h
    simp only [startsWithList, Bool.and_eq_false_iff]
    left
    simp [h.1, hab]

/-- `isAllowedByRobots` touches only the robots cache: every other state
field is unchanged. -/
theorem isAllowedByRobots_state (api : UrlApi) (cfg : Config) (w : World)
    (st : EngineState) (tr : Trace) (url : String) :
    (isAllowedByRobots api cfg w st tr url).2.1.visited = st.visited
    ∧ (isAllowedByRobots api cfg w st tr url).2.1.queue = st.queue
    ∧ (isAllowedByRobots api cfg w st tr url).2.1.index = st.index
    ∧ (isAllowedByRobots api cfg w st tr url).2.1.errors = st.errors
    ∧ (isAllowedByRobots api cfg w st tr url).2.1.stopFlag = st.stopFlag
    ∧ (isAllowedByRobots api cfg w st tr url).2.1.skipped = st.skipped
    ∧ (isAllowedByRobots api cfg w st tr url).2.1.failed = st.failed := by
  unfold isAllowedByRobots
  split
  · exact ⟨rfl, rfl, rfl, rfl, rfl, rfl, rfl⟩
  · dsimp only
    split
    · exact ⟨rfl, rfl, rfl, rfl, rfl, rfl, rfl⟩
    · split
      · exact ⟨rfl, rfl, rfl, rfl, rfl, rfl, rfl⟩
      · split <;> exact ⟨rfl, rfl, rfl, rfl, rfl, rfl, rfl⟩

/-- `crawlPage` never touches the frontier queue, the page index or the
error list (it only reads the queue's item, adds to `visited`, bumps
counters and the robots cache). -/
theorem crawlPage_stateEq (api : UrlApi) (cfg : Config) (w : World) :
    ∀ (fuel : Nat) (st : EngineState) (tr : Trace) (url : String) (d : Nat)
      (r : Option String) (n : Nat),
      (crawlPage api cfg w fuel st tr url d r n).1.queue = st.queue
      ∧ (crawlPage api cfg w fuel st tr url d r n).1.index = st.index
      ∧ (crawlPage api cfg w fuel st tr url d r n).1.errors = st.errors := by
  intro fuel
  induction fuel with
  | zero =>
    intro st tr url d r n
    rw [crawlPage]
    split
    · exact ⟨rfl, rfl, rfl⟩
    · dsimp only
      obtain ⟨-, hq, hi, he, -, -, -⟩ := isAllowedByRobots_state api cfg w st tr url
      have hq' : (if cfg.respectRobots then isAllowedByRobots api cfg w st tr url
          else (true, st, tr)).2.1.queue = st.queue := by
        split
        · exact hq
        · rfl
      have hi' : (if cfg.respectRobots then isAllowedByRobots api cfg w st tr url
          else (true, st, tr)).2.1.index = st.index := by
        split
        · exact hi
        · rfl
      have he' : (if cfg.respectRobots then isAllowedByRobots api cfg w st tr url
          else (true, st, tr)).2.1.errors = st.errors := by
        split
        · exact he
        · rfl
      generalize hR : (if cfg.respectRobots then isAllowedByRobots api cfg w st tr url
          else (true, st, tr)) = rr at hq' hi' he' ⊢
      dsimp only [doFetch]
      repeat' split
      all_goals exact ⟨hq', hi', he'⟩
  | succ f ih =>
    intro st tr url d r n
    rw [crawlPage]
    split
    · exact ⟨rfl, rfl, rfl⟩
    · dsimp only
      obtain ⟨-, hq, hi, he, -, -, -⟩ := isAllowedByRobots_state api cfg w st tr url
      have hq' : (if cfg.respectRobots then isAllowedByRobots api cfg w st tr url
          else (true, st, tr)).2.1.queue = st.queue := by
        split
        · exact hq
        · rfl
      have hi' : (if cfg.respectRobots then isAllowedByRobots api cfg w st tr url
          else (true, st, tr)).2.1.index = st.index := by
        split
        · exact hi
        · rfl
      have he' : (if cfg.respectRobots then isAllowedByRobots api cfg w st tr url
          else (true, st, tr)).2.1.errors = st.errors := by
        split
        · exact he
        · rfl
      generalize hR : (if cfg.respectRobots then isAllowedByRobots api cfg w st tr url
          else (true, st, tr)) = rr at hq' hi' he' ⊢
      dsimp only [doFetch]
      repeat' split
      all_goals try exact ⟨hq', hi', he'⟩
      all_goals exact
        ⟨((ih _ _ _ _ _ _).1).trans hq', ((ih _ _ _ _ _ _).2.1).trans hi',
         ((ih _ _ _ _ _ _).2.2).trans he'⟩

/-- Whatever `crawlPage` does, previously visited URLs stay visited. -/
theorem crawlPage_visited_mem (api : UrlApi) (cfg : Config) (w : World) :
    ∀ (fuel : Nat) (st : EngineState) (tr : Trace) (url : String) (d : Nat)
      (r : Option String) (n : Nat) (x : String),
      x ∈ st.visited → x ∈ (crawlPage api cfg w fuel st tr url d r n).1.visited := by
  intro fuel
  induction fuel with
  | zero =>
    intro st tr url d r n x hx
    rw [crawlPage]
    split
    · exact hx
    · dsimp only
      obtain ⟨hv, -, -, -, -, -, -⟩ := isAllowedByRobots_state api cfg w st tr url
      have hv' : (if cfg.respectRobots then isAllowedByRobots api cfg w st tr url
          else (true, st, tr)).2.1.visited = st.visited := by
        split
        · exact hv
        · rfl
      generalize hR : (if cfg.respectRobots then isAllowedByRobots api cfg w st tr url
          else (true, st, tr)) = rr at hv' ⊢
      dsimp only [doFetch]
      repeat' split
      all_goals try exact hv'.symm ▸ hx
      all_goals exact List.mem_append_left _ (hv'.symm ▸ hx)
  | succ f ih =>
    intro st tr url d r n x hx
    rw [crawlPage]
    split
    · exact hx
    · dsimp only
      obtain ⟨hv, -, -, -, -, -, -⟩ := isAllowedByRobots_state api cfg w st tr url
      have hv' : (if cfg.respectRobots then isAllowedByRobots api cfg w st tr url
          else (true, st, tr)).2.1.visited = st.visited := by
        split
        · exact hv
        · rfl
      generalize hR : (if cfg.respectRobots then isAllowedByRobots api cfg w st tr url
          else (true, st, tr)) = rr at hv' ⊢
      dsimp only [doFetch]
      repeat' split
      all_goals try exact hv'.symm ▸ hx
      all_goals try exact List.mem_append_left _ (hv'.symm ▸ hx)
      all_goals exact ih _ _ _ _ _ _ _ (List.mem_append_left _ (hv'.symm ▸ hx))

/-- A page record returned by `crawlPage` carries the requested URL, depth
and referrer. -/
theorem crawlPage_pageShape (api : UrlApi) (cfg : Config) (w : World) :
    ∀ (fuel : Nat) (st : EngineState) (tr : Trace) (url : String) (d : Nat)
      (r : Option String) (n : Nat) (p : PageData),
      (crawlPage api cfg w fuel st tr url d r n).2.2 = POutcome.page p →
      p.url = url ∧ p.depth = d ∧ p.referrer = r := by
  intro fuel
  induction fuel with
  | zero =>
    intro st tr url d r n p
    rw [crawlPage]
    split
    · intro hp; simp at hp
    · dsimp only
      generalize hR : (if cfg.respectRobots then isAllowedByRobots api cfg w st tr url
          else (true, st, tr)) = rr
      split
      · intro hp; simp at hp
      · dsimp only [doFetch]
        rcases ho : w.oracle rr.2.2.nFetch with ⟨status, sT, cT, body⟩ | e
        · dsimp only
          by_cases hok : respOk status = true
          · rw [if_pos hok]
            by_cases hct : jsIncludes cT "text/html" = true
            · rw [if_pos hct]
              intro hp
              simp only [POutcome.page.injEq] at hp
              subst hp
              exact ⟨rfl, rfl, rfl⟩
            · rw [if_neg hct]
              dsimp only
              split <;> (intro hp; simp at hp)
          · rw [if_neg hok]
            dsimp only
            split <;> (intro hp; simp at hp)
        · dsimp only
          split <;> (intro hp; simp at hp)
  | succ f ih =>
    intro st tr url d r n p
    rw [crawlPage]
    split
    · intro hp; simp at hp
    · dsimp only
      generalize hR : (if cfg.respectRobots then isAllowedByRobots api cfg w st tr url
          else (true, st, tr)) = rr
      split
      · intro hp; simp at hp
      · dsimp only [doFetch]
        rcases ho : w.oracle rr.2.2.nFetch with ⟨status, sT, cT, body⟩ | e
        · dsimp only
          by_cases hok : respOk status = true
          · rw [if_pos hok]
            by_cases hct : jsIncludes cT "text/html" = true
            · rw [if_pos hct]
              intro hp
              simp only [POutcome.page.injEq] at hp
              subst hp
              exact ⟨rfl, rfl, rfl⟩
            · rw [if_neg hct]
              dsimp only
              split <;> intro hp <;> (try dsimp only at hp) <;>
                first
                | exact ih _ _ _ _ _ _ _ hp
                | simp at hp
          · rw [if_neg hok]
            dsimp only
            split <;> intro hp <;> (try dsimp only at hp) <;>
              first
              | exact ih _ _ _ _ _ _ _ hp
              | simp at hp
        · dsimp only
          split <;> intro hp <;> (try dsimp only at hp) <;>
            first
            | exact ih _ _ _ _ _ _ _ hp
            | simp at hp

/-- **C7**: for the robots body `User-agent: *` / `Disallow: /admin` /
`Allow: /public`, the decision function denies `/admin/x`, allows
`/public/x`, and allows `/other` (default allow); and in general, while a
matching user-agent block is active, a later matching `Disallow:` line
forces the decision to deny and a later matching `Allow:` line forces it
to allow, regardless of what any earlier rule had set (last-match-wins:
`parseRobotsTxt` is the left fold of `robotsStep` over the lines). -/
theorem c7_robots_gate :
    parseRobotsTxt "WebWarden Crawler 2.0"
      "User-agent: *\nDisallow: /admin\nAllow: /public" "/admin/x" = false
    ∧ parseRobotsTxt "WebWarden Crawler 2.0"
      "User-agent: *\nDisallow: /admin\nAllow: /public" "/public/x" = true
    ∧ parseRobotsTxt "WebWarden Crawler 2.0"
      "User-agent: *\nDisallow: /admin\nAllow: /public" "/other" = true
    ∧ (∀ (ua path line : String) (b : Bool),
        jsStartsWith (jsToLower line) "disallow:" = true →
        jsTrim (jsDrop line 9) ≠ "" →
        jsStartsWith path (jsTrim (jsDrop line 9)) = true →
        robotsStep ua path (true, b) line = (true, false))
    ∧ (∀ (ua path line : String) (b : Bool),
        jsStartsWith (jsToLower line) "allow:" = true →
        jsTrim (jsDrop line 6) ≠ "" →
        jsStartsWith path (jsTrim (jsDrop line 6)) = true →
        robotsStep ua path (true, b) line = (true, true)) := by
  refine ⟨by decide, by decide, by decide, ?_, ?_⟩
  · intro ua path line b hd hp hm
    have hua : jsStartsWith (jsToLower line) "user-agent:" = false :=
      startsWithList_head_ne (l := (jsToLower line).toList) hd (by decide)
    simp only [robotsStep, jsStartsWith] at *
    rw [hua]
    simp only [Bool.false_eq_true, if_false, hd, Bool.true_and, if_true]
    have hne : (jsTrim (jsDrop line 9) != "") = true := by
      simpa using hp
    simp only [String.toList] at hm
    simp [hne, hm]
  · intro ua path line b ha hp hm
    have hua : jsStartsWith (jsToLower line) "user-agent:" = false :=
      startsWithList_head_ne (l := (jsToLower line).toList) ha (by decide)
    have hdis : jsStartsWith (jsToLower line) "disallow:" = false :=
      startsWithList_head_ne (l := (jsToLower line).toList) ha (by decide)
    simp only [robotsStep, jsStartsWith] at *
    rw [hua, hdis]
    simp only [Bool.false_eq_true, if_false, Bool.true_and, ha, if_true]
    have hne : (jsTrim (jsDrop line 6) != "") = true := by
      simpa using hp
    simp only [String.toList] at hm
    simp [hne, hm]

/-- Witness for C7: the override clauses applied to the concrete
`Disallow: /admin` line for the path `/admin/x` with the previous decision
`allow`. -/
theorem c7_robots_gate_witness :
    robotsStep "WebWarden Crawler 2.0" "/admin/x" (true, true) "Disallow: /admin"
      = (true, false) :=
  c7_robots_gate.2.2.2.1 "WebWarden Crawler 2.0" "/admin/x" "Disallow: /admin" true
    (by decide) (by decide) (by decide)

/-- **C1** (code bug): a work item whose fetch yields a non-2xx status
(here 404), or a 2xx response whose content type is not `text/html` (here
`application/json`), is NOT recorded as a `CrawlError`: the thrown error
is caught by the retry branch (`retryCount < maxRetries` and the name is
not `"AbortError"`), and the re-invocation of `crawlPage` returns `null`
at its visited guard — the URL was added to `visited` on the first
attempt — so the worker records neither a page nor an error.  Exactly one
fetch is issued (the "no second fetch" half of the claim holds, but only
as a side effect of the same guard). -/
theorem c1_terminal_failure_vanishes :
    (crawlIter toyApi cfgNoRobots (constWorld (FetchOutcome.resp 404 "Not Found" "text/html" ""))
      {} {} ⟨"http://e.com/a", 0, none⟩).1.errors = []
    ∧ (crawlIter toyApi cfgNoRobots (constWorld (FetchOutcome.resp 404 "Not Found" "text/html" ""))
      {} {} ⟨"http://e.com/a", 0, none⟩).1.index = []
    ∧ (crawlIter toyApi cfgNoRobots (constWorld (FetchOutcome.resp 404 "Not Found" "text/html" ""))
      {} {} ⟨"http://e.com/a", 0, none⟩).2.nFetch = 1
    ∧ (crawlIter toyApi cfgNoRobots (constWorld (FetchOutcome.resp 200 "OK" "application/json" "x"))
      {} {} ⟨"http://e.com/a", 0, none⟩).1.errors = []
    ∧ (crawlIter toyApi cfgNoRobots (constWorld (FetchOutcome.resp 200 "OK" "application/json" "x"))
      {} {} ⟨"http://e.com/a", 0, none⟩).1.index = []
    ∧ (crawlIter toyApi cfgNoRobots (constWorld (FetchOutcome.resp 200 "OK" "application/json" "x"))
      {} {} ⟨"http://e.com/a", 0, none⟩).2.nFetch = 1 := by
  exact ⟨rfl, rfl, rfl, rfl, rfl, rfl⟩

/-- **C3** (code bug): a work item whose fetch always fails transiently
(network `TypeError`) is attempted exactly ONCE, not `maxRetries + 1 = 3`
times, and never appears in `errors`: the first attempt adds the URL to
`visited` before fetching, so the retry re-invocation of `crawlPage`
returns `null` at its visited guard without fetching, and the worker
records nothing.  Moreover a per-fetch timeout surfaces as an
`AbortError`, which the retry condition `error.name !== 'AbortError'`
excludes from retrying: it is thrown after one attempt and recorded as a
`CrawlError`, so a timeout does NOT count toward `maxRetries`. -/
theorem c3_retry_ceiling_broken :
    (crawlIter toyApi cfgNoRobots (constWorld (FetchOutcome.err ⟨"TypeError", "Failed to fetch"⟩))
      {} {} ⟨"http://e.com/a", 0, none⟩).2.nFetch = 1
    ∧ (crawlIter toyApi cfgNoRobots (constWorld (FetchOutcome.err ⟨"TypeError", "Failed to fetch"⟩))
      {} {} ⟨"http://e.com/a", 0, none⟩).1.errors = []
    ∧ cfgNoRobots.maxRetries + 1 = 3
    ∧ (crawlIter toyApi cfgNoRobots (constWorld (FetchOutcome.err ⟨"AbortError", "The operation was aborted."⟩))
      {} {} ⟨"http://e.com/a", 0, none⟩).2.nFetch = 1
    ∧ (crawlIter toyApi cfgNoRobots (constWorld (FetchOutcome.err ⟨"AbortError", "The operation was aborted."⟩))
      {} {} ⟨"http://e.com/a", 0, none⟩).1.errors
        = [⟨"http://e.com/a", "The operation was aborted."⟩] := by
  exact ⟨rfl, rfl, rfl, rfl, rfl⟩

/-- Counterexample to **C2**: when `stopCrawl()` aborts an in-flight fetch,
the rejected fetch propagates an `AbortError` out of `crawlPage` (the
retry condition excludes `AbortError` names), the worker's `catch` calls
`handleCrawlError`, and the cancellation IS recorded in the final errors
array — here the final error list consists exactly of the abort entry. -/
theorem c2_abort_recorded_counterexample :
    (crawlLoop toyApi cfgNoRobots stopWorld 5
      { queue := [⟨"http://e.com/a", 0, none⟩] } {}).1.errors
      = [⟨"http://e.com/a", "The operation was aborted."⟩]
    ∧ (crawlLoop toyApi cfgNoRobots stopWorld 5
      { queue := [⟨"http://e.com/a", 0, none⟩] } {}).1.failed = 1 := by
  exact ⟨rfl, rfl⟩

/-- Counterexample to **C4**: a robots-denied URL is NOT in the visited set
afterward — `crawlPage` returns `null` at the robots check, which precedes
`this.visited.add(url)`, so the visited set stays empty (and `skipped` is
incremented); the claim asserts insertion happens at dequeue time, before
the robots check, and that a robots-denied URL is in the set afterward. -/
theorem c4_visited_insertion_counterexample :
    (crawlPage toyApi {} denyRobotsWorld 3 {} {} "http://h.com/x" 0 none 0).1.visited = []
    ∧ (crawlPage toyApi {} denyRobotsWorld 3 {} {} "http://h.com/x" 0 none 0).1.skipped = 1
    ∧ (crawlPage toyApi {} denyRobotsWorld 3 {} {} "http://h.com/x" 0 none 0).2.2 = POutcome.nul := by
  exact ⟨rfl, rfl, rfl⟩

/-- Counterexample to **C5**: one successfully processed work item with
remaining depth budget performs TWO outbound fetches inside a single
rate-limited request function (`crawlPage`'s fetch and `extractLinks`'
re-fetch, back to back); the rate limiter spaces only the dispatches of
request functions, so with `requestDelay = 1000` a job whose first fetch
settles after 10 ms starts its second fetch 10 ms after the first — far
less than `requestDelayMs` apart. -/
theorem c5_rate_spacing_counterexample :
    (crawlIter toyApi cfgNoRobots okWorld {} {} ⟨"http://e.com/a", 0, none⟩).2.fetchLog
      = [FetchEvent.page "http://e.com/a", FetchEvent.page "http://e.com/a"]
    ∧ timedFetchStarts 1000 [[10, 5]] 0 2000 = [2000, 2010]
    ∧ 2010 - 2000 < 1000 := by
  exact ⟨rfl, rfl, by decide⟩

/-- Counterexample to **C9**: when the robots.txt fetch fails with a
network error, the `catch` returns `true` WITHOUT caching anything, so a
later URL on the same host triggers a second robots.txt fetch for that
host — here two checks against `h.com` issue two robots fetches and leave
the cache empty, though the claim says the allow-all decision is cached
and no second fetch occurs. -/
theorem c9_failopen_cache_counterexample :
    (robotsTwice "http://h.com/a" "http://h.com/b").2.2.fetchLog
      = [FetchEvent.robots "http://h.com/robots.txt", FetchEvent.robots "http://h.com/robots.txt"]
    ∧ (robotsTwice "http://h.com/a" "http://h.com/b").2.1.robotsCache = []
    ∧ (robotsTwice "http://h.com/a" "http://h.com/b").1 = true := by
  exact ⟨rfl, rfl, rfl⟩

/-- `crawlPage` never changes the `failed` counter (only the worker's
error handler does). -/
theorem crawlPage_failed (api : UrlApi) (cfg : Config) (w : World) :
    ∀ (fuel : Nat) (st : EngineState) (tr : Trace) (url : String) (d : Nat)
      (r : Option String) (n : Nat),
      (crawlPage api cfg w fuel st tr url d r n).1.failed = st.failed := by
  intro fuel
  induction fuel with
  | zero =>
    intro st tr url d r n
    rw [crawlPage]
    split
    · rfl
    · dsimp only
      obtain ⟨-, -, -, -, -, -, hf⟩ := isAllowedByRobots_state api cfg w st tr url
      have hf' : (if cfg.respectRobots then isAllowedByRobots api cfg w st tr url
          else (true, st, tr)).2.1.failed = st.failed := by
        split
        · exact hf
        · rfl
      generalize hR : (if cfg.respectRobots then isAllowedByRobots api cfg w st tr url
          else (true, st, tr)) = rr at hf' ⊢
      dsimp only [doFetch]
      repeat' split
      all_goals exact hf'
  | succ f ih =>
    intro st tr url d r n
    rw [crawlPage]
    split
    · rfl
    · dsimp only
      obtain ⟨-, -, -, -, -, -, hf⟩ := isAllowedByRobots_state api cfg w st tr url
      have hf' : (if cfg.respectRobots then isAllowedByRobots api cfg w st tr url
          else (true, st, tr)).2.1.failed = st.failed := by
        split
        · exact hf
        · rfl
      generalize hR : (if cfg.respectRobots then isAllowedByRobots api cfg w st tr url
          else (true, st, tr)) = rr at hf' ⊢
      dsimp only [doFetch]
      repeat' split
      all_goals try exact hf'
      all_goals exact (ih _ _ _ _ _ _).trans hf'

/-- `extractLinks` only reads the state (its fetch can set `stopFlag`):
queue, index, errors and visited are unchanged, and it logs exactly one
additional page fetch. -/
theorem extractLinks_state (api : UrlApi) (w : World) (st : EngineState) (tr : Trace)
    (url : String) (nd : Nat) :
    (extractLinks api w st tr url nd).2.1.queue = st.queue
    ∧ (extractLinks api w st tr url nd).2.1.index = st.index
    ∧ (extractLinks api w st tr url nd).2.1.errors = st.errors
    ∧ (extractLinks api w st tr url nd).2.1.visited = st.visited
    ∧ (extractLinks api w st tr url nd).2.2.fetchLog
        = tr.fetchLog ++ [FetchEvent.page url] := by
  unfold extractLinks doFetch
  dsimp only
  repeat' split
  all_goals exact ⟨rfl, rfl, rfl, rfl, rfl⟩

/-- An in-flight fetch that rejects with an `AbortError` (a stop or a
fired timeout) is rethrown by `crawlPage` without any retry, whatever the
remaining retry budget. -/
theorem crawlPage_abort (api : UrlApi) (cfg : Config) (w : World)
    (fuel : Nat) (st : EngineState) (tr : Trace) (url : String) (d : Nat)
    (r : Option String) (n : Nat) (m : String)
    (hv : st.visited.contains url = false)
    (hcr : cfg.respectRobots = false)
    (ho : w.oracle tr.nFetch = FetchOutcome.err ⟨"AbortError", m⟩) :
    (crawlPage api cfg w fuel st tr url d r n).2.2
      = POutcome.thrown ⟨"AbortError", m⟩ := by
  rw [crawlPage]
  rw [if_neg (by simpa using hv)]
  simp only [hcr, Bool.false_eq_true, if_false]
  dsimp only [doFetch]
  rw [ho]
  simp

/-- A first-attempt 2xx `text/html` response makes `crawlPage` mark the
URL visited, log one fetch, and return the page record built from the
call's own `url`, `depth` and `referrer`. -/
theorem crawlPage_success (api : UrlApi) (cfg : Config) (w : World)
    (fuel : Nat) (st : EngineState) (tr : Trace) (url : String) (d : Nat)
    (r : Option String) (n : Nat) (status : Nat) (sT cT body : String)
    (hv : st.visited.contains url = false)
    (hcr : cfg.respectRobots = false)
    (ho : w.oracle tr.nFetch = FetchOutcome.resp status sT cT body)
    (hok : respOk status = true)
    (hct : jsIncludes cT "text/html" = true) :
    crawlPage api cfg w fuel st tr url d r n
      = (if w.stopAfterFetch tr.nFetch = true then
           { st with visited := st.visited ++ [url], stopFlag := true }
         else { st with visited := st.visited ++ [url] },
         { tr with nFetch := tr.nFetch + 1,
                   fetchLog := tr.fetchLog ++ [FetchEvent.page url] },
         POutcome.page { url := url, depth := d, referrer := r,
                         contentLength := body.length }) := by
  rw [crawlPage]
  rw [if_neg (by simpa using hv)]
  simp only [hcr, Bool.false_eq_true, if_false]
  simp only [Bool.not_true, Bool.false_eq_true, if_false]
  dsimp only [doFetch]
  rw [ho]
  simp only [hok, hct, if_true]

/-- **C2** (amended): a `stopCrawl()` that aborts an in-flight fetch makes
that fetch reject with an `AbortError`; `crawlPage` rethrows it (its retry
condition excludes `AbortError` names), the worker's `catch` records a
`CrawlError` for the URL and increments `failed`; and once `stopFlag` is
observed the worker loop exits immediately, returning the accumulated
pages and errors — including the abort entry. -/
theorem c2_stop_records_abort (api : UrlApi) (cfg : Config) (w : World)
    (st : EngineState) (tr : Trace) (item : WorkItem) (m : String)
    (hv : st.visited.contains item.url = false)
    (hcr : cfg.respectRobots = false)
    (ho : w.oracle tr.nFetch = FetchOutcome.err ⟨"AbortError", m⟩) :
    ((crawlIter api cfg w st tr item).1.errors = st.errors ++ [⟨item.url, m⟩]
      ∧ (crawlIter api cfg w st tr item).1.index = st.index
      ∧ (crawlIter api cfg w st tr item).1.failed = st.failed + 1)
    ∧ (∀ (fuel : Nat) (st2 : EngineState) (tr2 : Trace), st2.stopFlag = true →
        crawlLoop api cfg w fuel st2 tr2 = (st2, tr2)) := by
  constructor
  · unfold crawlIter
    dsimp only
    rw [crawlPage_abort api cfg w (cfg.maxRetries + 1) st tr item.url item.depth
      item.referrer 0 m hv hcr ho]
    dsimp only
    refine ⟨?_, ?_, ?_⟩
    · rw [(crawlPage_stateEq api cfg w (cfg.maxRetries + 1) st tr item.url item.depth
        item.referrer 0).2.2]
    · exact (crawlPage_stateEq api cfg w (cfg.maxRetries + 1) st tr item.url item.depth
        item.referrer 0).2.1
    · rw [crawlPage_failed api cfg w (cfg.maxRetries + 1) st tr item.url item.depth
        item.referrer 0]
  · intro fuel st2 tr2 hs
    cases fuel with
    | zero => rw [crawlLoop]
    | succ f => rw [crawlLoop, if_pos hs]

/-- **C10**: a work item whose `crawlPage` fetch succeeds with HTML and
whose depth is below `maxDepth` issues exactly two page GETs to its own
URL inside the single rate-limited request body (`crawlIter` is the
request function run under one gate acquisition): one in `crawlPage` and
a second in `extractLinks`, which re-fetches instead of reusing the HTML;
the page record is nevertheless built from the first response alone. -/
theorem c10_single_gate_double_fetch (api : UrlApi) (cfg : Config) (w : World)
    (st : EngineState) (tr : Trace) (item : WorkItem)
    (status : Nat) (sT cT body : String)
    (hv : st.visited.contains item.url = false)
    (hcr : cfg.respectRobots = false)
    (ho : w.oracle tr.nFetch = FetchOutcome.resp status sT cT body)
    (hok : respOk status = true)
    (hct : jsIncludes cT "text/html" = true)
    (hd : item.depth < cfg.maxDepth) :
    (crawlIter api cfg w st tr item).2.fetchLog
      = tr.fetchLog ++ [FetchEvent.page item.url, FetchEvent.page item.url]
    ∧ (crawlIter api cfg w st tr item).1.index
      = st.index ++ [⟨item.url, item.depth, item.referrer, body.length⟩] := by
  unfold crawlIter
  dsimp only
  rw [crawlPage_success api cfg w (cfg.maxRetries + 1) st tr item.url item.depth
    item.referrer 0 status sT cT body hv hcr ho hok hct]
  dsimp only
  rw [if_pos hd]
  constructor
  · rw [(extractLinks_state api w _ _ item.url (item.depth + 1)).2.2.2.2]
    dsimp only
    simp
  · rw [(extractLinks_state api w _ _ item.url (item.depth + 1)).2.1]
    dsimp only
    split <;> rfl

/-- One worker iteration grows the page index by at most one record. -/
theorem crawlIter_index_le (api : UrlApi) (cfg : Config) (w : World)
    (st : EngineState) (tr : Trace) (item : WorkItem) :
    (crawlIter api cfg w st tr item).1.index.length ≤ st.index.length + 1 := by
  unfold crawlIter
  dsimp only
  obtain ⟨-, hqi, -⟩ := crawlPage_stateEq api cfg w (cfg.maxRetries + 1) st tr item.url
    item.depth item.referrer 0
  split
  · split
    · rw [(extractLinks_state api w _ _ item.url (item.depth + 1)).2.1]
      dsimp only
      rw [hqi]
      simp
    · dsimp only
      rw [hqi]
      simp
  · rw [hqi]
    simp
  · rw [hqi]
    simp

/-- The page-cap invariant of the worker loop: the loop re-checks
`index.length < maxPages` before every dequeue and each iteration adds at
most one page, so the page count never exceeds `maxPages`. -/
theorem c6_page_cap_single_worker (api : UrlApi) (cfg : Config) (w : World) :
    ∀ (fuel : Nat) (st : EngineState) (tr : Trace),
      st.index.length ≤ cfg.maxPages →
      (crawlLoop api cfg w fuel st tr).1.index.length ≤ cfg.maxPages := by
  intro fuel
  induction fuel with
  | zero => intro st tr h; exact h
  | succ f ih =>
    intro st tr h
    rw [crawlLoop]
    split
    · exact h
    · split
      · exact h
      · split
        · dsimp only
          split
          · exact ih _ _ h
          · rename_i hlen _
            refine ih _ _ ?_
            refine le_trans (crawlIter_index_le api cfg w _ tr _) ?_
            exact Nat.succ_le_of_lt hlen
        · exact h

/-- The first dispatch of a (sub)drain never happens earlier than
`lastRequestTime + requestDelay`. -/
theorem dispatchSchedule_head_le (delay : Nat) :
    ∀ (ds : List Nat) (last now x : Nat),
      (dispatchSchedule delay ds last now).head? = some x → last + delay ≤ x := by
  intro ds
  cases ds with
  | nil => intro last now x h; simp [dispatchSchedule] at h
  | cons d ds =>
    intro last now x h
    simp only [dispatchSchedule, List.head?_cons, Option.some.injEq] at h
    omega

/-- **C5** (amended): the rate limiter guarantees at least `requestDelay`
between the dispatch times of consecutive rate-limited request functions
(work-item bodies) — not between individual HTTP fetches, of which one
body can issue several back to back. -/
theorem c5_delay_spacing (delay : Nat) :
    ∀ (ds : List Nat) (last now : Nat),
      List.Chain' (fun a b => a + delay ≤ b) (dispatchSchedule delay ds last now) := by
  intro ds
  induction ds with
  | nil => intro last now; simp [dispatchSchedule]
  | cons d ds ih =>
    intro last now
    rw [dispatchSchedule]
    rw [List.chain'_cons']
    constructor
    · intro y hy
      exact dispatchSchedule_head_le delay ds _ _ y hy
    · exact ih _ _

/-- **C9** (amended): for a host with no cached robots decision, a robots
fetch that rejects (network error) returns allow WITHOUT caching — so a
later URL on that host fetches robots.txt again — while a non-success
response caches `true` under the robots-URL key (scheme + host); a cached
key is answered without any fetch. -/
theorem c9_failopen_cache (api : UrlApi) (cfg : Config) (w : World)
    (st : EngineState) (tr : Trace) (url : String) (u : UrlParts)
    (hp : api.parse url = some u)
    (hc : cacheLookup st.robotsCache (robotsUrlOf u) = none) :
    (∀ e, w.robotsOracle tr.nRobots = FetchOutcome.err e →
      isAllowedByRobots api cfg w st tr url
        = (true, st, { tr with nRobots := tr.nRobots + 1,
                               fetchLog := tr.fetchLog
                                 ++ [FetchEvent.robots (robotsUrlOf u)] }))
    ∧ (∀ (status : Nat) (sT cT body : String),
        w.robotsOracle tr.nRobots = FetchOutcome.resp status sT cT body →
        respOk status = false →
        isAllowedByRobots api cfg w st tr url
          = (true,
             { st with robotsCache := st.robotsCache ++ [(robotsUrlOf u, true)] },
             { tr with nRobots := tr.nRobots + 1,
                       fetchLog := tr.fetchLog
                         ++ [FetchEvent.robots (robotsUrlOf u)] }))
    ∧ (∀ (st2 : EngineState) (tr2 : Trace) (b : Bool),
        cacheLookup st2.robotsCache (robotsUrlOf u) = some b →
        isAllowedByRobots api cfg w st2 tr2 url = (b, st2, tr2)) := by
  refine ⟨?_, ?_, ?_⟩
  · intro e he
    unfold isAllowedByRobots
    rw [hp]
    dsimp only
    rw [show u.protocol ++ "//" ++ u.host ++ "/robots.txt" = robotsUrlOf u from rfl]
    rw [hc, he]
  · intro status sT cT body ho hbad
    unfold isAllowedByRobots
    rw [hp]
    dsimp only
    rw [show u.protocol ++ "//" ++ u.host ++ "/robots.txt" = robotsUrlOf u from rfl]
    rw [hc, ho]
    simp only [hbad, Bool.false_eq_true, if_false]
  · intro st2 tr2 b hb
    unfold isAllowedByRobots
    rw [hp]
    dsimp only
    rw [show u.protocol ++ "//" ++ u.host ++ "/robots.txt" = robotsUrlOf u from rfl]
    rw [hb]

/-- **C4** (amended): a not-yet-visited URL is added to the visited set
inside `crawlPage` once the robots gate passes (or is disabled) and before
the fetch settles — so it is in the set afterward whatever the fetch
outcome — while a robots-denied URL is never added: the denial returns
`null` with only `skipped` incremented. -/
theorem c4_visited_insertion (api : UrlApi) (cfg : Config) (w : World)
    (fuel : Nat) (st : EngineState) (tr : Trace) (url : String) (d : Nat)
    (r : Option String) (n : Nat)
    (hnv : st.visited.contains url = false) :
    ((cfg.respectRobots = false ∨ (isAllowedByRobots api cfg w st tr url).1 = true) →
      url ∈ (crawlPage api cfg w fuel st tr url d r n).1.visited)
    ∧ (cfg.respectRobots = true → (isAllowedByRobots api cfg w st tr url).1 = false →
        (crawlPage api cfg w fuel st tr url d r n).1.visited = st.visited
        ∧ (crawlPage api cfg w fuel st tr url d r n).1.skipped = st.skipped + 1
        ∧ (crawlPage api cfg w fuel st tr url d r n).2.2 = POutcome.nul) := by
  obtain ⟨hvv, -, -, -, -, hsk, -⟩ := isAllowedByRobots_state api cfg w st tr url
  constructor
  · intro hrob
    cases fuel with
    | zero =>
      rw [crawlPage]
      rw [if_neg (by simpa using hnv)]
      dsimp only
      have h1 : (if cfg.respectRobots then isAllowedByRobots api cfg w st tr url
          else (true, st, tr)).1 = true := by
        rcases hrob with hx | hx
        · simp [hx]
        · by_cases hcr : cfg.respectRobots
          · simp only [hcr, if_true]; exact hx
          · simp [hcr]
      generalize hR : (if cfg.respectRobots then isAllowedByRobots api cfg w st tr url
          else (true, st, tr)) = rr at h1 ⊢
      rw [if_neg (by simp [h1])]
      dsimp only [doFetch]
      repeat' split
      all_goals simp
    | succ f =>
      rw [crawlPage]
      rw [if_neg (by simpa using hnv)]
      dsimp only
      have h1 : (if cfg.respectRobots then isAllowedByRobots api cfg w st tr url
          else (true, st, tr)).1 = true := by
        rcases hrob with hx | hx
        · simp [hx]
        · by_cases hcr : cfg.respectRobots
          · simp only [hcr, if_true]; exact hx
          · simp [hcr]
      generalize hR : (if cfg.respectRobots then isAllowedByRobots api cfg w st tr url
          else (true, st, tr)) = rr at h1 ⊢
      rw [if_neg (by simp [h1])]
      dsimp only [doFetch]
      repeat' split
      all_goals try (simp; done)
      all_goals (refine crawlPage_visited_mem api cfg w _ _ _ _ _ _ _ url ?_; simp)
  · intro hcr hden
    cases fuel with
    | zero =>
      rw [crawlPage]
      rw [if_neg (by simpa using hnv)]
      dsimp only
      simp only [hcr, if_true]
      rw [if_pos (by simp [hden])]
      exact ⟨hvv, by rw [hsk], rfl⟩
    | succ f =>
      rw [crawlPage]
      rw [if_neg (by simpa using hnv)]
      dsimp only
      simp only [hcr, if_true]
      rw [if_pos (by simp [hden])]
      exact ⟨hvv, by rw [hsk], rfl⟩

/-- Witness for C2: the concrete stop-abort run records exactly the abort
entry, and a stopped state exits the loop unchanged. -/
theorem c2_stop_records_abort_witness :
    (crawlIter toyApi cfgNoRobots stopWorld {} {} ⟨"http://e.com/a", 0, none⟩).1.errors
      = ([] : List CrawlError) ++ [⟨"http://e.com/a", "The operation was aborted."⟩]
    ∧ crawlLoop toyApi cfgNoRobots stopWorld 4
        { stopFlag := true } {} = ({ stopFlag := true }, {}) :=
  ⟨(c2_stop_records_abort toyApi cfgNoRobots stopWorld {} {} ⟨"http://e.com/a", 0, none⟩
      "The operation was aborted." rfl rfl rfl).1.1,
   (c2_stop_records_abort toyApi cfgNoRobots stopWorld {} {} ⟨"http://e.com/a", 0, none⟩
      "The operation was aborted." rfl rfl rfl).2 4 { stopFlag := true } {} rfl⟩

/-- Witness for C4: a fetched URL lands in the visited set; a
robots-denied URL leaves the visited set untouched. -/
theorem c4_visited_insertion_witness :
    "http://e.com/a" ∈ (crawlPage toyApi cfgNoRobots okWorld 3 {} {}
      "http://e.com/a" 0 none 0).1.visited
    ∧ (crawlPage toyApi {} denyRobotsWorld 3 {} {}
        "http://h.com/x" 0 none 0).1.visited = ({} : EngineState).visited :=
  ⟨(c4_visited_insertion toyApi cfgNoRobots okWorld 3 {} {} "http://e.com/a" 0 none 0
      rfl).1 (Or.inl rfl),
   ((c4_visited_insertion toyApi {} denyRobotsWorld 3 {} {} "http://h.com/x" 0 none 0
      rfl).2 rfl (by decide)).1⟩

/-- **C6**: `len(pages) ≤ maxPages` at every point of every reachable
crawl, concurrency included.  `startCrawl` seeds the queue with exactly
one item, and `processCrawlQueue` runs each `crawlWorker()` synchronously
up to its first `await`: worker 1 shifts the seed BEFORE suspending at
`rateLimitedRequest`, so workers 2 through `maxConcurrency` find
`queue.length > 0` false at their first loop check and exit permanently —
their entire run is the loop on an empty queue, a no-op (first conjunct).
The one surviving worker's loop re-checks `index.length < maxPages`
before every dequeue and adds at most one page per iteration (second
conjunct), so from the reachable initial state the accumulated page count
is bounded by `maxPages` for EVERY fuel, i.e. at every intermediate and
final point of the crawl (third conjunct). -/
theorem c6_page_cap (api : UrlApi) (cfg : Config) (w : World) :
    (∀ (fuel : Nat) (st : EngineState) (tr : Trace), st.queue = [] →
        crawlLoop api cfg w fuel st tr = (st, tr))
    ∧ (∀ (fuel : Nat) (st : EngineState) (tr : Trace),
        st.index.length ≤ cfg.maxPages →
        (crawlLoop api cfg w fuel st tr).1.index.length ≤ cfg.maxPages)
    ∧ (∀ (fuel : Nat) (seed : String),
        (crawlLoop api cfg w fuel
          { queue := [{ url := seed, depth := 0, referrer := none }] }
          {}).1.index.length ≤ cfg.maxPages) := by
  refine ⟨?_, c6_page_cap_single_worker api cfg w, ?_⟩
  · intro fuel st tr hq
    cases fuel with
    | zero => rw [crawlLoop]
    | succ f =>
      rw [crawlLoop]
      split
      · rfl
      · rw [hq]
  · intro fuel seed
    exact c6_page_cap_single_worker api cfg w fuel _ {} (Nat.zero_le _)

/-- Witness for C6: a worker whose first check sees an exhausted queue
exits with the state untouched, and a concrete seeded crawl stays within
the page cap. -/
theorem c6_page_cap_witness :
    crawlLoop toyApi cfgNoRobots okWorld 3 { visited := ["http://e.com/a"] } {}
      = ({ visited := ["http://e.com/a"] }, {})
    ∧ (crawlLoop toyApi cfgNoRobots okWorld 3
        { queue := [⟨"http://e.com/a", 0, none⟩] } {}).1.index.length
        ≤ cfgNoRobots.maxPages :=
  ⟨(c6_page_cap toyApi cfgNoRobots okWorld).1 3 { visited := ["http://e.com/a"] } {} rfl,
   (c6_page_cap toyApi cfgNoRobots okWorld).2.1 3
     { queue := [⟨"http://e.com/a", 0, none⟩] } {} (by decide)⟩

/-- Witness for C9 (amended): a concrete network-error robots fetch
returns allow, caches nothing, and logs one robots fetch. -/
theorem c9_failopen_cache_witness :
    isAllowedByRobots toyApi {} netErrRobotsWorld {} {} "http://h.com/a"
      = (true, {}, { nRobots := 1,
                     fetchLog := [FetchEvent.robots "http://h.com/robots.txt"] }) := by
  have h := (c9_failopen_cache toyApi {} netErrRobotsWorld {} {} "http://h.com/a"
    ⟨"http:", "h.com", "h.com", "/a", "http://h.com/a"⟩ (by decide) rfl).1
      ⟨"TypeError", "Failed to fetch"⟩ rfl
  exact h.trans rfl

/-- Witness for C10: a concrete successful depth-0 item issues two GETs to
its own URL inside one request body and records one page. -/
theorem c10_single_gate_double_fetch_witness :
    (crawlIter toyApi cfgNoRobots okWorld {} {} ⟨"http://e.com/a", 0, none⟩).2.fetchLog
      = [FetchEvent.page "http://e.com/a", FetchEvent.page "http://e.com/a"]
    ∧ (crawlIter toyApi cfgNoRobots okWorld {} {} ⟨"http://e.com/a", 0, none⟩).1.index
      = [⟨"http://e.com/a", 0, none, 2⟩] := by
  have h := c10_single_gate_double_fetch toyApi cfgNoRobots okWorld {} {}
    ⟨"http://e.com/a", 0, none⟩ 200 "OK" "text/html" "hi" rfl rfl rfl
    (by decide) (by decide) (by decide)
  exact ⟨h.1.trans rfl, h.2.trans rfl⟩

theorem isSameDomain_parse (api : UrlApi) (u1 u2 : String)
    (h : isSameDomain api u1 u2 = true) :
    ∃ a b, api.parse u1 = some a ∧ api.parse u2 = some b ∧ a.hostname = b.hostname := by
  unfold isSameDomain at h
  cases h1 : api.parse u1 <;> rw [h1] at h
  · simp at h
  · cases h2 : api.parse u2 <;> rw [h2] at h
    · simp at h
    · exact ⟨_, _, rfl, rfl, by simpa using h⟩

theorem extractLinksCore_mem_facts (api : UrlApi) (url : String) (d : Nat)
    (vis hrefs : List String) (l : WorkItem)
    (hl : l ∈ extractLinksCore api url d vis hrefs) :
    (∃ href ∈ hrefs, ∃ abs, api.resolve href url = some abs ∧ l.url = abs.href)
    ∧ isValidUrl api l.url = true
    ∧ vis.contains l.url = false
    ∧ l.depth = d ∧ l.referrer = some url
    ∧ ∀ base, api.parse url = some base → isSameDomain api l.url base.href = true := by
  unfold extractLinksCore at hl
  cases hb : api.parse url with
  | none => rw [hb] at hl; simp at hl
  | some base =>
    rw [hb] at hl
    have hl1 := List.mem_of_mem_take hl
    obtain ⟨hmem, hcond⟩ := List.mem_filter.mp hl1
    simp only [Bool.and_eq_true, Bool.not_eq_true'] at hcond
    obtain ⟨⟨hvalid, hnvis⟩, hdom⟩ := hcond
    unfold resolvedItems at hmem
    rw [List.mem_filterMap] at hmem
    obtain ⟨href, hhref, hres⟩ := hmem
    by_cases he : (href == "") = true
    · rw [if_pos he] at hres; simp at hres
    · rw [if_neg he] at hres
      cases hr : api.resolve href url with
      | none => rw [hr] at hres; simp at hres
      | some abs =>
        rw [hr] at hres
        simp only [Option.some.injEq] at hres
        subst hres
        refine ⟨⟨href, hhref, abs, hr, rfl⟩, hvalid, hnvis, rfl, rfl, ?_⟩
        intro base2 hbase2
        have hbb : base = base2 := by
          simpa using hbase2
        exact hbb ▸ hdom

theorem extractLinksCore_bounds (api : UrlApi) (url : String) (d : Nat)
    (vis hrefs : List String) :
    (extractLinksCore api url d vis hrefs).length ≤ 20
    ∧ (extractLinksCore api url d vis hrefs).Sublist (resolvedItems api url d hrefs) := by
  unfold extractLinksCore
  cases hb : api.parse url with
  | none => exact ⟨by simp, List.nil_sublist _⟩
  | some base =>
    constructor
    · exact List.length_take_le _ _
    · exact (List.take_sublist _ _).trans (List.filter_sublist _)

theorem extractLinks_links_mem (api : UrlApi) (w : World) (st : EngineState)
    (tr : Trace) (url : String) (nd : Nat) (l : WorkItem)
    (hl : l ∈ (extractLinks api w st tr url nd).1) :
    ∃ vis hrefs, l ∈ extractLinksCore api url nd vis hrefs := by
  unfold extractLinks at hl
  dsimp only at hl
  split at hl
  · simp at hl
  · exact ⟨_, _, hl⟩

theorem crawlIter_sameHost (api : UrlApi) (cfg : Config) (w : World)
    (st : EngineState) (tr : Trace) (item : WorkItem) (h₀ : String)
    (hrt : ∀ s p, api.parse s = some p →
      ∃ q, api.parse p.href = some q ∧ q.hostname = p.hostname)
    (hitem : sameHost api h₀ item.url)
    (hq : ∀ it ∈ st.queue, sameHost api h₀ it.url)
    (hi : ∀ pg ∈ st.index, sameHost api h₀ pg.url) :
    (∀ it ∈ (crawlIter api cfg w st tr item).1.queue, sameHost api h₀ it.url)
    ∧ (∀ pg ∈ (crawlIter api cfg w st tr item).1.index, sameHost api h₀ pg.url) := by
  obtain ⟨hcq, hci, -⟩ := crawlPage_stateEq api cfg w (cfg.maxRetries + 1) st tr item.url
    item.depth item.referrer 0
  unfold crawlIter
  dsimp only
  split
  · -- POutcome.page p
    rename_i p hp
    have hps := crawlPage_pageShape api cfg w (cfg.maxRetries + 1) st tr item.url
      item.depth item.referrer 0 p hp
    split
    · -- depth < maxDepth: extractLinks runs
      rename_i hd
      obtain ⟨heq, hei, -, -, -⟩ := extractLinks_state api w _ _ item.url (item.depth + 1)
      constructor
      · intro it hit
        dsimp only at hit
        rw [List.mem_append] at hit
        rcases hit with hold | hnew
        · rw [heq] at hold
          exact hq it (by exact hcq ▸ hold)
        · obtain ⟨vis, hrefs, hcore⟩ := extractLinks_links_mem api w _ _ item.url
            (item.depth + 1) it hnew
          obtain ⟨-, -, -, -, -, hdomf⟩ := extractLinksCore_mem_facts api item.url
            (item.depth + 1) vis hrefs it hcore
          obtain ⟨pb, hpb, hpbh⟩ := hitem
          have hdom := hdomf pb hpb
          obtain ⟨a, b, ha, hbb, hab⟩ := isSameDomain_parse api it.url pb.href hdom
          obtain ⟨qq, hqq, hqqh⟩ := hrt item.url pb hpb
          have hbq : b = qq := by
            have h12 := hbb.symm.trans hqq
            simpa using h12
          exact ⟨a, ha, by rw [hab, hbq, hqqh, hpbh]⟩
      · intro pg hpg
        dsimp only at hpg
        rw [hei] at hpg
        dsimp only at hpg
        rw [List.mem_append] at hpg
        rcases hpg with hold | hnew
        · exact hi pg (hci ▸ hold)
        · have hpu : pg = p := by simpa using hnew
          subst hpu
          exact hps.1 ▸ hitem
    · -- no extraction
      constructor
      · intro it hit
        dsimp only at hit
        exact hq it (hcq ▸ hit)
      · intro pg hpg
        dsimp only at hpg
        rw [List.mem_append] at hpg
        rcases hpg with hold | hnew
        · exact hi pg (hci ▸ hold)
        · have hpu : pg = p := by simpa using hnew
          subst hpu
          exact hps.1 ▸ hitem
  · -- POutcome.nul
    exact ⟨fun it hit => hq it (hcq ▸ hit), fun pg hpg => hi pg (hci ▸ hpg)⟩
  · -- POutcome.thrown
    exact ⟨fun it hit => hq it (hcq ▸ hit), fun pg hpg => hi pg (hci ▸ hpg)⟩

theorem crawlLoop_sameHost (api : UrlApi) (cfg : Config) (w : World) (h₀ : String)
    (hrt : ∀ s p, api.parse s = some p →
      ∃ q, api.parse p.href = some q ∧ q.hostname = p.hostname) :
    ∀ (fuel : Nat) (st : EngineState) (tr : Trace),
      (∀ it ∈ st.queue, sameHost api h₀ it.url) →
      (∀ pg ∈ st.index, sameHost api h₀ pg.url) →
      ∀ pg ∈ (crawlLoop api cfg w fuel st tr).1.index, sameHost api h₀ pg.url := by
  intro fuel
  induction fuel with
  | zero => intro st tr _ hi; exact hi
  | succ f ih =>
    intro st tr hq hi
    rw [crawlLoop]
    split
    · exact hi
    · split
      · exact hi
      · rename_i item rest heq
        split
        · dsimp only
          split
          · refine ih _ _ ?_ hi
            intro it hit
            exact hq it (by rw [heq]; exact List.mem_cons_of_mem _ hit)
          · have hq' : ∀ it ∈ ({ st with queue := rest } : EngineState).queue,
                sameHost api h₀ it.url := by
              intro it hit
              exact hq it (by rw [heq]; exact List.mem_cons_of_mem _ hit)
            have hitem : sameHost api h₀ item.url :=
              hq item (by rw [heq]; exact List.mem_cons_self _ _)
            obtain ⟨hq2, hi2⟩ := crawlIter_sameHost api cfg w { st with queue := rest }
              tr item h₀ hrt hitem hq' hi
            exact ih _ _ hq2 hi2
        · exact hi

theorem toyParse_href (s : String) (p : UrlParts) (h : toyParse s = some p) :
    p.href = s := by
  unfold toyParse at h
  split at h
  · simp only [Option.some.injEq] at h; rw [← h]
  · split at h
    · simp only [Option.some.injEq] at h; rw [← h]
    · simp at h

theorem toyParse_hrt : ∀ s p, toyApi.parse s = some p →
    ∃ q, toyApi.parse p.href = some q ∧ q.hostname = p.hostname := by
  intro s p h
  have hh : p.href = s := toyParse_href s p h
  exact ⟨p, by rw [hh]; exact h, rfl⟩

theorem c8_link_discovery (api : UrlApi)
    (hrt : ∀ s p, api.parse s = some p →
      ∃ q, api.parse p.href = some q ∧ q.hostname = p.hostname) :
    (∀ (url : String) (d : Nat) (vis hrefs : List String),
      (∀ l ∈ extractLinksCore api url d vis hrefs,
        (∃ href ∈ hrefs, ∃ abs, api.resolve href url = some abs ∧ l.url = abs.href)
        ∧ isValidUrl api l.url = true
        ∧ vis.contains l.url = false
        ∧ l.depth = d ∧ l.referrer = some url
        ∧ (∀ base, api.parse url = some base →
            isSameDomain api l.url base.href = true))
      ∧ (extractLinksCore api url d vis hrefs).length ≤ 20
      ∧ (extractLinksCore api url d vis hrefs).Sublist (resolvedItems api url d hrefs))
    ∧ (∀ (cfg : Config) (w : World) (fuel : Nat) (seed : String) (p₀ : UrlParts)
        (tr : Trace),
        api.parse seed = some p₀ →
        ∀ pg ∈ (crawlLoop api cfg w fuel
            { queue := [{ url := seed, depth := 0, referrer := none }] } tr).1.index,
          sameHost api p₀.hostname pg.url) := by
  constructor
  · intro url d vis hrefs
    refine ⟨?_, (extractLinksCore_bounds api url d vis hrefs).1,
      (extractLinksCore_bounds api url d vis hrefs).2⟩
    intro l hl
    exact extractLinksCore_mem_facts api url d vis hrefs l hl
  · intro cfg w fuel seed p₀ tr hseed
    refine crawlLoop_sameHost api cfg w p₀.hostname hrt fuel _ tr ?_ ?_
    · intro it hit
      have hit' : it = { url := seed, depth := 0, referrer := none } := by
        simpa using hit
      subst hit'
      exact ⟨p₀, hseed, rfl⟩
    · intro pg hpg
      simp at hpg

theorem c8_link_discovery_witness :
    isValidUrl toyApi "http://e.com/a" = true
    ∧ (extractLinksCore toyApi "http://e.com/p" 1 [] ["/a"]).length ≤ 20
    ∧ sameHost toyApi "e.com" "http://e.com/a" := by
  have h := c8_link_discovery toyApi toyParse_hrt
  refine ⟨((h.1 "http://e.com/p" 1 [] ["/a"]).1
      ⟨"http://e.com/a", 1, some "http://e.com/p"⟩ (by decide)).2.1,
    (h.1 "http://e.com/p" 1 [] ["/a"]).2.1, ?_⟩
  exact h.2 cfgNoRobots okWorld 2 "http://e.com/a"
    ⟨"http:", "e.com", "e.com", "/a", "http://e.com/a"⟩ {} (by decide)
    ⟨"http://e.com/a", 0, none, 2⟩ (by decide)
